import Mathlib

/-!
Verification of the vidcat video-to-terminal converter.

The program converts a video file into a compressed stream of ANSI escape
sequences.  Pure fragments of the script are embedded as Lean functions;
subprocess results (ffprobe, ffmpeg, zstd) appear as explicit inputs.
Python float arithmetic is modelled exactly over the rationals, and the
Python builtin `int` (truncation toward zero) is modelled by `pyInt`.
-/

/-- Python builtin int() applied to a rational value: truncation toward zero. -/
def pyInt (q : ℚ) : Int := if 0 ≤ q then ⌊q⌋ else -⌊-q⌋

/-- The escape sequence written at the start of the stream to hide the cursor. -/
def hideCursor : String := "\x1b[?25l"

/-- The escape sequence written at the end of the stream to show the cursor. -/
def showCursor : String := "\x1b[?25h"

/-- The Python expression given by the string of a newline repeated n times. -/
def newlines (n : Nat) : String := (List.replicate n '\n').asString

/-- The frame loop of compress_frames_to_file: each frame block is appended to
the file contents accumulated so far, in list order. -/
def writeFrames (acc : String) : List String → String
  | [] => acc
  | frame :: rest => writeFrames (acc ++ frame) rest

/-- Contents of the uncompressed intermediate file written by
compress_frames_to_file: the row-count newlines, the hide-cursor code, the
frame blocks in order, then the show-cursor code. -/
def uncompressedStream (frame_data_list : List String) (terminal_height : Nat) : String :=
  writeFrames (newlines terminal_height ++ hideCursor) frame_data_list ++ showCursor

/-- Modelled from the spec: the frame blocks concatenated unmodified in their
original order. -/
def concatFrames : List String → String
  | [] => ""
  | frame :: rest => frame ++ concatFrames rest

/-- The statistics dictionary returned by compress_frames_to_file.  Frame sizes
are UTF-8 byte lengths, as produced by len(s.encode("utf-8")). -/
structure CompressStats where
  frame_sizes : List Nat
  total_frames : Nat
  avg_frame_size : ℚ
deriving DecidableEq

/-- Statistics computation of compress_frames_to_file: the guarded average is 0
for an empty list and sum divided by count otherwise. -/
def compressStats (frame_data_list : List String) : CompressStats :=
  let frame_sizes := frame_data_list.map (fun s => s.utf8ByteSize)
  { frame_sizes := frame_sizes
    total_frames := frame_sizes.length
    avg_frame_size :=
      if frame_sizes ≠ [] then ((frame_sizes.sum : ℚ) / (frame_sizes.length : ℚ)) else 0 }

/-- Observable outcome of one call of compress_frames_to_file: the returned
value or the propagated exception, and whether the uncompressed intermediate
file still exists afterwards. -/
structure CompressRun where
  result : Except String CompressStats
  temp_contents_written : String
  temp_file_still_on_disk : Bool

/-- One run of compress_frames_to_file over an abstract filesystem.  The body
of the try block writes the temp file (so it exists and holds the encoded
stream), then runs the zstd subprocess with check=True, which raises when zstd
fails; the finally block unlinks the temp file whenever it exists, on both
exit paths. -/
def compress_frames_to_file (frame_data_list : List String) (terminal_height : Nat)
    (zstd_ok : Bool) : CompressRun :=
  let temp_exists := true
  let written := uncompressedStream frame_data_list terminal_height
  let result : Except String CompressStats :=
    if zstd_ok then .ok (compressStats frame_data_list) else .error "zstd failed"
  let temp_exists := if temp_exists then false else temp_exists
  { result := result, temp_contents_written := written,
    temp_file_still_on_disk := temp_exists }

/-- generate_playback_command from the script, over exact rationals: the rate
passed to pv is int(avg_frame_size * fps). -/
def generate_playback_command (output_path : String) (fps : ℚ) (avg_frame_size : ℚ) :
    String :=
  let bytes_per_second : Int := pyInt (avg_frame_size * fps)
  "cat " ++ output_path ++ " | zstd -d | pv -q -L " ++ toString bytes_per_second

/-- Python truthiness of the optional numeric fields self.width and
self.height: both None and 0 are falsy. -/
def isFalsy : Option Nat → Bool
  | none => true
  | some n => n == 0

/-- calculate_terminal_dimensions from the script: guard on unset or zero
dimensions, aspect-ratio division, int truncation, even adjustment, and the
minimum clamp, returning the (columns, rows) pair. -/
def calculate_terminal_dimensions (width height : Option Nat) (terminal_width : Nat) :
    Except String (Nat × Int) :=
  if isFalsy width || isFalsy height then
    .error "Video dimensions not set - call get_video_metadata first"
  else
    let w := width.getD 0
    let h := height.getD 0
    let ar : ℚ := (w : ℚ) / (h : ℚ)
    let t : Int := pyInt ((terminal_width : ℚ) / ar / 2)
    let t := if t % 2 ≠ 0 then t - 1 else t
    let t := max 2 t
    .ok (terminal_width, t)

/-- Modelled from the spec: aspect ratio a = W/H, row count r = floor(C/a/2),
decremented by 1 when odd, clamped to a minimum of 2. -/
def spec_rows (W H C : Nat) : Int :=
  let r : Int := ⌊(C : ℚ) / ((W : ℚ) / (H : ℚ)) / 2⌋
  let r := if Odd r then r - 1 else r
  max 2 r

/-- One stream entry of the parsed ffprobe JSON, with the fields the script
reads. -/
structure VideoStream where
  codec_type : String
  width : Nat
  height : Nat
  fps_num : Nat
  fps_den : Nat
  nb_frames : Option Nat
deriving DecidableEq

/-- The format entry of the parsed ffprobe JSON. -/
structure FormatInfo where
  duration : ℚ
deriving DecidableEq

/-- The parsed ffprobe JSON document. -/
structure FfprobeMetadata where
  streams : List VideoStream
  format : FormatInfo
deriving DecidableEq

/-- Outcome of the ffprobe subprocess as seen by get_video_metadata: a
non-zero exit (CalledProcessError), stdout that is not valid JSON
(JSONDecodeError), or a parsed document. -/
inductive ProbeResult where
  | failed
  | unparseable
  | parsed (metadata : FfprobeMetadata)
deriving DecidableEq

/-- The metadata dictionary returned by get_video_metadata. -/
structure VideoMetadata where
  fps : ℚ
  width : Nat
  height : Nat
  frame_count : Int
deriving DecidableEq

/-- get_video_metadata from the script: the two except clauses and the missing
video stream check become errors; a zero r_frame_rate denominator raises a
ZeroDivisionError that no except clause catches, so it is a further error
path; otherwise the fields of the first video-typed stream are extracted,
with the frame count falling back to int(duration * fps). -/
def get_video_metadata (r : ProbeResult) : Except String VideoMetadata :=
  match r with
  | .failed => .error "ffprobe failed"
  | .unparseable => .error "Failed to parse ffprobe output"
  | .parsed metadata =>
    match metadata.streams.find? (fun s => s.codec_type == "video") with
    | none => .error "No video stream found"
    | some video_stream =>
      if video_stream.fps_den = 0 then
        .error "float division by zero"
      else
        let fps : ℚ := (video_stream.fps_num : ℚ) / (video_stream.fps_den : ℚ)
        let frame_count : Int :=
          match video_stream.nb_frames with
          | some n => (n : Int)
          | none => pyInt (metadata.format.duration * fps)
        .ok { fps := fps
              width := video_stream.width
              height := video_stream.height
              frame_count := frame_count }

/-- frame_to_ansi from the script, with the rich-pixels rendering treated as an
opaque input string: the cursor-up escape is prepended to the rendered cells. -/
def frame_to_ansi (terminal_height : Nat) (ansi_output : String) : String :=
  let frame_data := "\x1b[" ++ toString terminal_height ++ "A"
  frame_data ++ ansi_output

/-- Modelled from the spec: the cursor-reposition escape sequence that moves
the cursor up by exactly rows lines. -/
def cursorUp (rows : Nat) : String := "\x1b[" ++ toString rows ++ "A"

/-- Decimal digit character, as produced by the %06d format. -/
def digitChar (d : Nat) : Char := Char.ofNat (48 + d)

/-- Zero-padded decimal numeral of exactly k digits, most significant first. -/
def padDigits : Nat → Nat → List Char
  | 0, _ => []
  | k + 1, n => digitChar (n / 10 ^ k) :: padDigits k (n % 10 ^ k)

/-- The file name frame_%06d.png given to extracted frame number n. -/
def frameName (n : Nat) : String := "frame_" ++ (padDigits 6 n).asString ++ ".png"

/-- The ordering step of extract_frames: sorted(...) applied to the frame file
names in whatever order the filesystem glob returned them. -/
def extract_frames_order (files : List String) : List String :=
  files.insertionSort (· ≤ ·)

/-- A non-video stream, used as a concrete probe input. -/
def audioStreamEx : VideoStream :=
  { codec_type := "audio", width := 0, height := 0, fps_num := 0, fps_den := 0,
    nb_frames := none }

/-- A video stream, used as a concrete probe input. -/
def videoStreamEx : VideoStream :=
  { codec_type := "video", width := 1920, height := 1080, fps_num := 30, fps_den := 1,
    nb_frames := some 300 }

/-- A parsed ffprobe document whose first video stream is the second entry. -/
def metadataEx : FfprobeMetadata :=
  { streams := [audioStreamEx, videoStreamEx], format := { duration := 10 } }

/-- A video stream whose r_frame_rate is the rational string 0/0, an output
ffprobe really produces. -/
def zeroDenStreamEx : VideoStream :=
  { codec_type := "video", width := 640, height := 480, fps_num := 0, fps_den := 0,
    nb_frames := none }

/-- A parsed ffprobe document whose only video stream has a zero frame-rate
denominator. -/
def zeroDenMetadataEx : FfprobeMetadata :=
  { streams := [zeroDenStreamEx], format := { duration := 10 } }

theorem writeFrames_eq (L : List String) (acc : String) :
    writeFrames acc L = acc ++ concatFrames L := by
  induction L generalizing acc with
  | nil => simp [writeFrames, concatFrames]
  | cons frame rest ih =>
    simp [writeFrames, concatFrames, ih, String.append_assoc]

theorem pyInt_eq_floor {q : ℚ} (h : 0 ≤ q) : pyInt q = ⌊q⌋ := by
  simp [pyInt, h]

/-- C1: the encoded uncompressed stream is exactly the row-count newlines, the
hide-cursor code, the frame blocks concatenated unmodified in order, then the
show-cursor code; for an empty frame list nothing stands between the hide and
show codes. -/
theorem c1_stream_framing :
    (∀ (L : List String) (r : Nat),
      uncompressedStream L r = newlines r ++ hideCursor ++ concatFrames L ++ showCursor) ∧
    (∀ r : Nat, uncompressedStream [] r = newlines r ++ hideCursor ++ showCursor) := by
  constructor
  · intro L r
    simp [uncompressedStream, writeFrames_eq, String.append_assoc]
  · intro r
    simp [uncompressedStream, writeFrames]

/-- C6: after compress_frames_to_file finishes, whether the zstd subprocess
succeeded or raised, the uncompressed intermediate file no longer exists. -/
theorem c6_temp_file_cleanup (L : List String) (h : Nat) (zstd_ok : Bool) :
    (compress_frames_to_file L h zstd_ok).temp_file_still_on_disk = false := rfl

/-- C8: the frame block produced by frame_to_ansi is exactly the cursor-up-by
rows escape sequence followed by the rendered cell content. -/
theorem c8_frame_reposition (h : Nat) (ansi_output : String) :
    frame_to_ansi h ansi_output = cursorUp h ++ ansi_output := rfl

/-- C9: the statistics of compress_frames_to_file count every frame, and the
average frame size is the byte sum divided by the count for a non-empty list
and 0 for an empty one, the division being guarded. -/
theorem c9_stats_guarded_average :
    (∀ L : List String, (compressStats L).total_frames = L.length) ∧
    (∀ L : List String, L ≠ [] →
      (compressStats L).avg_frame_size =
        ((L.map String.utf8ByteSize).sum : ℚ) / (L.length : ℚ)) ∧
    (compressStats ([] : List String)).avg_frame_size = 0 := by
  refine ⟨fun L => by simp [compressStats], fun L hL => ?_, by simp [compressStats]⟩
  simp [compressStats, hL]

theorem c9_stats_guarded_average_witness :
    (compressStats ["ab"]).avg_frame_size =
      ((["ab"].map String.utf8ByteSize).sum : ℚ) / ((["ab"] : List String).length : ℚ) :=
  c9_stats_guarded_average.2.1 ["ab"] (by decide)

theorem calc_dims_eq_spec_rows (W H C : Nat) (hW : 0 < W) (hH : 0 < H) (hC : 0 < C) :
    calculate_terminal_dimensions (some W) (some H) C = .ok (C, spec_rows W H C) := by
  have hw : isFalsy (some W) = false := by
    simp only [isFalsy, beq_eq_false_iff_ne, ne_eq]
    omega
  have hh : isFalsy (some H) = false := by
    simp only [isFalsy, beq_eq_false_iff_ne, ne_eq]
    omega
  have hq : (0 : ℚ) ≤ (C : ℚ) / ((W : ℚ) / (H : ℚ)) / 2 := by positivity
  unfold calculate_terminal_dimensions
  rw [hw, hh]
  simp only [Bool.or_self, Bool.false_eq_true, if_false, Option.getD_some]
  rw [pyInt_eq_floor hq]
  unfold spec_rows
  rcases Int.even_or_odd ⌊(C : ℚ) / ((W : ℚ) / (H : ℚ)) / 2⌋ with he | ho
  · have h0 := Int.even_iff.mp he
    have hno : ¬ Odd ⌊(C : ℚ) / ((W : ℚ) / (H : ℚ)) / 2⌋ := by
      simpa [Int.not_odd_iff_even] using he
    simp [h0, hno]
  · have h1 := Int.odd_iff.mp ho
    simp [h1, ho]

/-- C2: for positive source dimensions and column count, the dimension
calculator returns the requested columns paired with the spec formula
floor(C/a/2), decremented when odd, clamped to 2; in particular 1920x1080 at
80 columns gives (80, 22). -/
theorem c2_dimension_calculator :
    (∀ (W H C : Nat), 0 < W → 0 < H → 0 < C →
      calculate_terminal_dimensions (some W) (some H) C = .ok (C, spec_rows W H C)) ∧
    calculate_terminal_dimensions (some 1920) (some 1080) 80 = .ok (80, 22) := by
  have hspec : spec_rows 1920 1080 80 = 22 := by
    have hfloor :
        (⌊((80 : Nat) : ℚ) / (((1920 : Nat) : ℚ) / ((1080 : Nat) : ℚ)) / 2⌋ : Int) = 22 := by
      push_cast
      norm_num
    simp only [spec_rows, hfloor]
    rw [if_neg (by rw [Int.odd_iff]; decide : ¬ Odd (22 : Int))]
    exact max_eq_right (by norm_num)
  refine ⟨fun W H C hW hH hC => calc_dims_eq_spec_rows W H C hW hH hC, ?_⟩
  rw [calc_dims_eq_spec_rows 1920 1080 80 (by norm_num) (by norm_num) (by norm_num), hspec]

theorem c2_dimension_calculator_witness :
    calculate_terminal_dimensions (some 1920) (some 1080) 80 =
      .ok (80, spec_rows 1920 1080 80) :=
  c2_dimension_calculator.1 1920 1080 80 (by norm_num) (by norm_num) (by norm_num)

/-- C3: for positive source dimensions and column count, the row count
returned by the dimension calculator is even and at least 2. -/
theorem c3_rows_even_and_min (W H C : Nat) (hW : 0 < W) (hH : 0 < H) (hC : 0 < C) :
    ∃ r : Int, calculate_terminal_dimensions (some W) (some H) C = .ok (C, r) ∧
      Even r ∧ 2 ≤ r := by
  refine ⟨spec_rows W H C, calc_dims_eq_spec_rows W H C hW hH hC, ?_, ?_⟩
  · simp only [spec_rows]
    have he : Even (if Odd ⌊(C : ℚ) / ((W : ℚ) / (H : ℚ)) / 2⌋ then
        ⌊(C : ℚ) / ((W : ℚ) / (H : ℚ)) / 2⌋ - 1 else ⌊(C : ℚ) / ((W : ℚ) / (H : ℚ)) / 2⌋) := by
      by_cases ho : Odd ⌊(C : ℚ) / ((W : ℚ) / (H : ℚ)) / 2⌋
      · rw [if_pos ho]
        exact Int.even_sub_one.mpr (Int.not_even_iff_odd.mpr ho)
      · rw [if_neg ho]
        exact Int.not_odd_iff_even.mp ho
    rcases max_choice 2 (if Odd ⌊(C : ℚ) / ((W : ℚ) / (H : ℚ)) / 2⌋ then
        ⌊(C : ℚ) / ((W : ℚ) / (H : ℚ)) / 2⌋ - 1 else
        ⌊(C : ℚ) / ((W : ℚ) / (H : ℚ)) / 2⌋) with h | h <;> rw [h]
    · exact ⟨1, by norm_num⟩
    · exact he
  · simp only [spec_rows]
    exact le_max_left _ _

theorem c3_rows_even_and_min_witness :
    ∃ r : Int, calculate_terminal_dimensions (some 1920) (some 1080) 80 = .ok (80, r) ∧
      Even r ∧ 2 ≤ r :=
  c3_rows_even_and_min 1920 1080 80 (by norm_num) (by norm_num) (by norm_num)

/-- C10: when the stored width or height is unset or zero the dimension
calculator fails with the ValueError message before any division, and on every
successful call both stored dimensions, the divisors of the aspect-ratio
computation, are nonzero rationals. -/
theorem c10_division_guard :
    (∀ (width height : Option Nat) (tw : Nat),
      (isFalsy width || isFalsy height) = true →
      calculate_terminal_dimensions width height tw =
        .error "Video dimensions not set - call get_video_metadata first") ∧
    (∀ (width height : Option Nat) (tw : Nat) (p : Nat × Int),
      calculate_terminal_dimensions width height tw = .ok p →
      ((width.getD 0 : ℚ) ≠ 0 ∧ (height.getD 0 : ℚ) ≠ 0)) := by
  constructor
  · intro width height tw hg
    simp [calculate_terminal_dimensions, hg]
  · intro width height tw p hok
    cases hb : (isFalsy width || isFalsy height) with
    | true => simp [calculate_terminal_dimensions, hb] at hok
    | false =>
      rcases Bool.or_eq_false_iff.mp hb with ⟨hwf, hhf⟩
      constructor
      · cases width with
        | none => simp [isFalsy] at hwf
        | some n =>
          have hn : n ≠ 0 := by simpa [isFalsy] using hwf
          simpa using Nat.cast_ne_zero.mpr hn
      · cases height with
        | none => simp [isFalsy] at hhf
        | some n =>
          have hn : n ≠ 0 := by simpa [isFalsy] using hhf
          simpa using Nat.cast_ne_zero.mpr hn

theorem c10_division_guard_witness :
    (calculate_terminal_dimensions none (some 5) 80 =
      .error "Video dimensions not set - call get_video_metadata first") ∧
    (((some 1920 : Option Nat).getD 0 : ℚ) ≠ 0 ∧
      ((some 1080 : Option Nat).getD 0 : ℚ) ≠ 0) :=
  ⟨c10_division_guard.1 none (some 5) 80 (by decide),
   c10_division_guard.2 (some 1920) (some 1080) 80 (80, spec_rows 1920 1080 80)
     (calc_dims_eq_spec_rows 1920 1080 80 (by norm_num) (by norm_num) (by norm_num))⟩

/-- C5 counterexample: at fps 1 and average frame size 27/10 the playback
command uses int truncation, 2, not rounding to the nearest integer, 3. -/
theorem c5_round_counterexample :
    generate_playback_command "out.zst" 1 (27 / 10) ≠
      "cat " ++ "out.zst" ++ " | zstd -d | pv -q -L " ++
        toString (round (((27 : ℚ) / 10) * 1)) := by
  have h2 : pyInt (27 / 10 * 1 : ℚ) = 2 := by
    rw [pyInt, if_pos (by norm_num : (0 : ℚ) ≤ 27 / 10 * 1)]
    norm_num
  have h3 : round (((27 : ℚ) / 10) * 1) = 3 := by norm_num [round_eq]
  simp only [generate_playback_command, h2, h3]
  decide

/-- C5 as amended: the playback command generator computes bytes_per_second as
the floor (Python int truncation, the arguments being nonnegative) of
avg_frame_size * fps and formats the decompress, rate-limit, emit pipeline. -/
theorem c5_trunc_playback_command (output_path : String) (fps avg_frame_size : ℚ)
    (hf : 0 ≤ fps) (ha : 0 ≤ avg_frame_size) :
    generate_playback_command output_path fps avg_frame_size =
      "cat " ++ output_path ++ " | zstd -d | pv -q -L " ++
        toString ⌊avg_frame_size * fps⌋ := by
  simp only [generate_playback_command, pyInt_eq_floor (mul_nonneg ha hf)]

theorem c5_trunc_playback_command_witness :
    generate_playback_command "out.zst" 30 (5 / 2) =
      "cat " ++ "out.zst" ++ " | zstd -d | pv -q -L " ++
        toString ⌊(5 / 2 : ℚ) * 30⌋ :=
  c5_trunc_playback_command "out.zst" 30 (5 / 2) (by norm_num) (by norm_num)

/-- C7 counterexample: a parsed document holding a video stream whose
frame-rate denominator is zero makes the probe fail, although the tool
succeeded, the output parsed, and a video-typed stream is present, refuting
the exactly-when clause of the claim as stated. -/
theorem c7_zero_den_counterexample :
    (∃ e, get_video_metadata (.parsed zeroDenMetadataEx) = .error e) ∧
    ¬ (ProbeResult.parsed zeroDenMetadataEx = .failed ∨
       ProbeResult.parsed zeroDenMetadataEx = .unparseable ∨
       ∃ m, ProbeResult.parsed zeroDenMetadataEx = .parsed m ∧
         ∀ s ∈ m.streams, s.codec_type ≠ "video") := by
  constructor
  · exact ⟨"float division by zero", rfl⟩
  · rintro (h | h | ⟨m, hm, hall⟩)
    · exact ProbeResult.noConfusion h
    · exact ProbeResult.noConfusion h
    · have hmm : zeroDenMetadataEx = m := by injection hm
      subst hmm
      exact hall zeroDenStreamEx (by simp [zeroDenMetadataEx]) rfl

/-- C7 as amended: the metadata probe fails exactly when the tool exited
non-zero, the output was unparseable, no video-typed stream is present, or
the first video-typed stream has a zero frame-rate denominator (an uncaught
ZeroDivisionError); otherwise it returns the width, height, frame rate and
frame count extracted from the first video stream. -/
theorem c7_probe_failure_conditions :
    (∀ r : ProbeResult,
      (∃ e, get_video_metadata r = .error e) ↔
        (r = .failed ∨ r = .unparseable ∨
          (∃ m, r = .parsed m ∧ ∀ s ∈ m.streams, s.codec_type ≠ "video") ∨
          (∃ m vs, r = .parsed m ∧
            m.streams.find? (fun s => s.codec_type == "video") = some vs ∧
            vs.fps_den = 0))) ∧
    (∀ (m : FfprobeMetadata) (vs : VideoStream),
      m.streams.find? (fun s => s.codec_type == "video") = some vs →
      vs.fps_den ≠ 0 →
      get_video_metadata (.parsed m) =
        .ok { fps := (vs.fps_num : ℚ) / (vs.fps_den : ℚ)
              width := vs.width
              height := vs.height
              frame_count :=
                match vs.nb_frames with
                | some n => (n : Int)
                | none =>
                  pyInt (m.format.duration * ((vs.fps_num : ℚ) / (vs.fps_den : ℚ))) }) := by
  constructor
  · intro r
    cases r with
    | failed => exact iff_of_true ⟨_, rfl⟩ (Or.inl rfl)
    | unparseable => exact iff_of_true ⟨_, rfl⟩ (Or.inr (Or.inl rfl))
    | parsed m =>
      cases hfind : m.streams.find? (fun s => s.codec_type == "video") with
      | none =>
        refine iff_of_true ⟨"No video stream found", by simp [get_video_metadata, hfind]⟩ ?_
        refine Or.inr (Or.inr (Or.inl ⟨m, rfl, ?_⟩))
        intro s hs
        have := List.find?_eq_none.mp hfind s hs
        simpa using this
      | some vs =>
        by_cases hden : vs.fps_den = 0
        · refine iff_of_true ⟨"float division by zero", ?_⟩ ?_
          · simp [get_video_metadata, hfind, hden]
          · exact Or.inr (Or.inr (Or.inr ⟨m, vs, rfl, hfind, hden⟩))
        · refine iff_of_false ?_ ?_
          · rintro ⟨e, he⟩
            simp [get_video_metadata, hfind, hden] at he
          · rintro (h | h | ⟨m2, hm2, hall⟩ | ⟨m2, vs2, hm2, hfind2, hden2⟩)
            · exact ProbeResult.noConfusion h
            · exact ProbeResult.noConfusion h
            · have hmm : m = m2 := by injection hm2
              subst hmm
              have hmem : vs ∈ m.streams := List.mem_of_find?_eq_some hfind
              have hp := List.find?_some hfind
              exact hall vs hmem (by simpa using hp)
            · have hmm : m = m2 := by injection hm2
              subst hmm
              rw [hfind] at hfind2
              have hvs : vs = vs2 := by injection hfind2
              subst hvs
              exact hden hden2
  · intro m vs hfind hden
    simp [get_video_metadata, hfind, hden]

theorem c7_probe_failure_conditions_witness :
    get_video_metadata (.parsed metadataEx) =
      .ok { fps := (videoStreamEx.fps_num : ℚ) / (videoStreamEx.fps_den : ℚ)
            width := videoStreamEx.width
            height := videoStreamEx.height
            frame_count :=
              match videoStreamEx.nb_frames with
              | some n => (n : Int)
              | none =>
                pyInt (metadataEx.format.duration *
                  ((videoStreamEx.fps_num : ℚ) / (videoStreamEx.fps_den : ℚ))) } :=
  c7_probe_failure_conditions.2 metadataEx videoStreamEx (by decide) (by decide)

theorem length_padDigits (k : Nat) : ∀ n, (padDigits k n).length = k := by
  induction k with
  | zero => intro n; rfl
  | succ k ih => intro n; simp [padDigits, ih]

theorem digitChar_strict_mono :
    ∀ d₁ < 10, ∀ d₂ < 10, d₁ < d₂ → digitChar d₁ < digitChar d₂ := by decide

theorem padDigits_lex (k : Nat) :
    ∀ m n : Nat, m < n → n < 10 ^ k →
      List.Lex (· < ·) (padDigits k m) (padDigits k n) := by
  induction k with
  | zero =>
    intro m n hmn hn
    rw [pow_zero] at hn
    exact absurd hmn (by omega)
  | succ k ih =>
    intro m n hmn hn
    have hq : m / 10 ^ k ≤ n / 10 ^ k := Nat.div_le_div_right (Nat.le_of_lt hmn)
    have hn10 : n / 10 ^ k < 10 := by
      apply Nat.div_lt_of_lt_mul
      rw [pow_succ] at hn
      omega
    rcases Nat.lt_or_eq_of_le hq with hlt | heq
    · exact List.Lex.rel (digitChar_strict_mono _ (lt_of_le_of_lt hq hn10) _ hn10 hlt)
    · rw [padDigits, padDigits, heq]
      apply List.Lex.cons
      apply ih
      · have h1 := Nat.div_add_mod m (10 ^ k)
        have h2 := Nat.div_add_mod n (10 ^ k)
        have hlt2 : 10 ^ k * (m / 10 ^ k) + m % 10 ^ k <
            10 ^ k * (n / 10 ^ k) + n % 10 ^ k := by
          rw [h1, h2]
          exact hmn
        rw [heq] at hlt2
        exact Nat.lt_of_add_lt_add_left hlt2
      · exact Nat.mod_lt n (pow_pos (by norm_num) k)

theorem lex_append_same_head {α : Type} (r : α → α → Prop) (p : List α) {l₁ l₂ : List α}
    (h : List.Lex r l₁ l₂) : List.Lex r (p ++ l₁) (p ++ l₂) := by
  induction p with
  | nil => simpa using h
  | cons c p ih => exact List.Lex.cons ih

theorem lex_append_of_length_eq {α : Type} {r : α → α → Prop} :
    ∀ {l₁ l₂ : List α}, List.Lex r l₁ l₂ → l₁.length = l₂.length →
      ∀ s₁ s₂ : List α, List.Lex r (l₁ ++ s₁) (l₂ ++ s₂) := by
  intro l₁ l₂ h
  induction h with
  | nil => intro hlen; simp at hlen
  | @cons a t₁ t₂ h ih =>
    intro hlen s₁ s₂
    exact List.Lex.cons (ih (by simpa using hlen) s₁ s₂)
  | @rel a₁ t₁ a₂ t₂ hab =>
    intro hlen s₁ s₂
    exact List.Lex.rel hab

theorem frameName_strict_mono {m n : Nat} (hmn : m < n) (hn : n < 10 ^ 6) :
    frameName m < frameName n := by
  rw [String.lt_iff_toList_lt]
  show List.Lex (· < ·)
      ("frame_".data ++ ((padDigits 6 m).asString.data ++ ".png".data))
      ("frame_".data ++ ((padDigits 6 n).asString.data ++ ".png".data))
  apply lex_append_same_head
  exact lex_append_of_length_eq (padDigits_lex 6 m n hmn hn)
    (by rw [length_padDigits, length_padDigits]) _ _

/-- C4: sorting the extracted frame files named by the zero-padded scheme
yields them in strictly increasing numeric frame-index order, whatever order
the filesystem enumerated them in: the output is the frame names of the
sorted index list, and that index list is strictly increasing. -/
theorem c4_extraction_ordering (idxs : List Nat) (files : List String)
    (hb : ∀ i ∈ idxs, i < 10 ^ 6) (hnd : idxs.Nodup)
    (hperm : files.Perm (idxs.map frameName)) :
    extract_frames_order files = (idxs.insertionSort (· ≤ ·)).map frameName ∧
    (idxs.insertionSort (· ≤ ·)).Pairwise (· < ·) := by
  have hpermN : (idxs.insertionSort (· ≤ ·)).Perm idxs := List.perm_insertionSort _ _
  have hndS : (idxs.insertionSort (· ≤ ·)).Nodup := hpermN.nodup_iff.mpr hnd
  have hsorted : (idxs.insertionSort (· ≤ ·)).Sorted (· ≤ ·) :=
    List.sorted_insertionSort _ _
  have hltS : (idxs.insertionSort (· ≤ ·)).Sorted (· < ·) := hsorted.lt_of_le hndS
  refine ⟨?_, hltS⟩
  have hbS : ∀ i ∈ idxs.insertionSort (· ≤ ·), i < 10 ^ 6 :=
    fun i hi => hb i (hpermN.subset hi)
  have hmapSorted : ((idxs.insertionSort (· ≤ ·)).map frameName).Sorted (· ≤ ·) := by
    rw [List.Sorted, List.pairwise_map]
    refine List.Pairwise.imp_of_mem ?_ hltS
    intro a b ha hbmem hab
    exact le_of_lt (frameName_strict_mono hab (hbS b hbmem))
  have hfilesSorted : (extract_frames_order files).Sorted (· ≤ ·) :=
    List.sorted_insertionSort _ _
  have hp : (extract_frames_order files).Perm
      ((idxs.insertionSort (· ≤ ·)).map frameName) :=
    ((List.perm_insertionSort _ files).trans hperm).trans (hpermN.map frameName).symm
  exact List.eq_of_perm_of_sorted hp hfilesSorted hmapSorted

theorem c4_extraction_ordering_witness :
    extract_frames_order [frameName 1, frameName 2, frameName 0] =
      (([2, 0, 1] : List Nat).insertionSort (· ≤ ·)).map frameName ∧
    (([2, 0, 1] : List Nat).insertionSort (· ≤ ·)).Pairwise (· < ·) :=
  c4_extraction_ordering [2, 0, 1] [frameName 1, frameName 2, frameName 0]
    (by decide) (by decide) (by decide)
